import Mathlib

/-
Verification development for the ORCA calculation pipeline
(orca_state.py, orca_job_manager.py, orca_main.py, orca_notifier.py,
orca_output_utils.py, orca_safe_file.py).

The Python data model and operations are shallowly embedded: the persisted
pipeline-state JSON document becomes a Lean structure, the Python dict
`running` becomes an association list with Python-dict semantics
(assignment replaces an existing key in place, otherwise appends; pop
removes the key), timestamps become natural numbers, and every store
operation is a pure state transformer mirroring the source line by line.
-/

namespace OrcaPipeline

/-- Job metadata as built by XYZFileHandler.process_xyz_file (orca_main.py):
molecule_name, xyz_file, inp_file, calc_type ("opt" or "freq"), retry_count.
The JobManager reads calc_type with default "opt" and retry_count with
default 0; the structure keeps both fields always present, matching every
producer in the source. -/
structure JobInfo where
  molecule_name : String
  xyz_file : String
  inp_file : String
  calc_type : String
  retry_count : Nat
deriving DecidableEq, Repr

/-- One element of the persisted `queued` list (StateStore.add_job):
job_id, info, added_at. -/
structure QueuedEntry where
  job_id : String
  info : JobInfo
  added_at : Nat
deriving DecidableEq, Repr

/-- One value of the persisted `running` dict (StateStore.get_next_job):
info and started_at. -/
structure RunningEntry where
  info : JobInfo
  started_at : Nat
deriving DecidableEq, Repr

/-- One element of the persisted `completed` list (StateStore.mark_completed):
job_id, info, result (the result_info argument, a product-directory string
or None), completed_at. -/
structure CompletedEntry where
  job_id : String
  info : JobInfo
  result : Option String
  completed_at : Nat
deriving DecidableEq, Repr

/-- One element of the persisted `failed` list (StateStore.mark_failed):
job_id, info, error message, failed_at. -/
structure FailedEntry where
  job_id : String
  info : JobInfo
  error : String
  failed_at : Nat
deriving DecidableEq, Repr

/-- The aggregate pipeline-state document
{queued, running, completed, failed} persisted by StateStore
(orca_state.py).  `running` is a Python dict keyed by job id, modelled as
an association list in insertion order. -/
structure PipelineState where
  queued : List QueuedEntry
  running : List (String × RunningEntry)
  completed : List CompletedEntry
  failed : List FailedEntry
deriving DecidableEq, Repr

/-- The empty aggregate, as initialised by StateStore._ensure_state_file. -/
def emptyState : PipelineState := ⟨[], [], [], []⟩

/-- Membership test `job_id in [j["job_id"] for j in state["queued"]]`
used by StateStore.add_job. -/
def qHas (q : List QueuedEntry) (k : String) : Bool :=
  q.any (fun e => e.job_id == k)

/-- Membership test `job_id in state["running"]` on the running dict. -/
def hasKey (m : List (String × RunningEntry)) (k : String) : Bool :=
  m.any (fun p => p.1 == k)

/-- Python dict assignment `state["running"][job_id] = v`: replace the value
in place when the key exists, append otherwise. -/
def dictSet (m : List (String × RunningEntry)) (k : String) (v : RunningEntry) :
    List (String × RunningEntry) :=
  if hasKey m k then m.map (fun p => if p.1 == k then (k, v) else p)
  else m ++ [(k, v)]

/-- Python dict lookup on the running dict. -/
def dictGet (m : List (String × RunningEntry)) (k : String) : Option RunningEntry :=
  (m.find? (fun p => p.1 == k)).map (fun p => p.2)

/-- Python dict `pop(job_id)`: remove the key (unique in a dict). -/
def dictRemove (m : List (String × RunningEntry)) (k : String) :
    List (String × RunningEntry) :=
  m.filter (fun p => !(p.1 == k))

/-- StateStore.add_job (orca_state.py lines 44-55): if the job id is not
already among the queued ids, append {job_id, info, added_at} to the tail
of `queued`; otherwise leave the state untouched (no save occurs). -/
def add_job (t : Nat) (jid : String) (info : JobInfo) (s : PipelineState) :
    PipelineState :=
  if qHas s.queued jid then s
  else { s with queued := s.queued ++ [⟨jid, info, t⟩] }

/-- StateStore.get_next_job (orca_state.py lines 57-70): pop the head of
`queued`, insert it into `running` with a start timestamp, and return it;
return none on an empty queue. -/
def get_next_job (t : Nat) (s : PipelineState) :
    Option (String × JobInfo) × PipelineState :=
  match s.queued with
  | [] => (none, s)
  | j :: rest =>
      (some (j.job_id, j.info),
       { s with queued := rest, running := dictSet s.running j.job_id ⟨j.info, t⟩ })

/-- StateStore.mark_completed (orca_state.py lines 72-85): if the job id is
in `running`, pop it and append a completed record; otherwise no-op. -/
def mark_completed (t : Nat) (jid : String) (res : Option String)
    (s : PipelineState) : PipelineState :=
  match dictGet s.running jid with
  | none => s
  | some entry =>
      { s with running := dictRemove s.running jid,
               completed := s.completed ++ [⟨jid, entry.info, res, t⟩] }

/-- StateStore.mark_failed (orca_state.py lines 87-100): if the job id is
in `running`, pop it and append a failed record carrying the error
message; otherwise no-op. -/
def mark_failed (t : Nat) (jid : String) (err : String) (s : PipelineState) :
    PipelineState :=
  match dictGet s.running jid with
  | none => s
  | some entry =>
      { s with running := dictRemove s.running jid,
               failed := s.failed ++ [⟨jid, entry.info, err, t⟩] }

/-- StateStore.clear_running (orca_state.py lines 114-120): remove the job
id from `running` when present. -/
def clear_running (jid : String) (s : PipelineState) : PipelineState :=
  if hasKey s.running jid then { s with running := dictRemove s.running jid }
  else s

/-- StateStore.get_queue_size. -/
def get_queue_size (s : PipelineState) : Nat := s.queued.length

/-- Job ids of the queued list. -/
def queuedIds (s : PipelineState) : List String :=
  s.queued.map (fun e => e.job_id)

/-- Keys of the running dict. -/
def runningIds (s : PipelineState) : List String :=
  s.running.map (fun p => p.1)

/-- Job ids of the failed list. -/
def failedIds (s : PipelineState) : List String :=
  s.failed.map (fun e => e.job_id)

/-- Well-formedness of a pipeline state: queued ids are pairwise distinct,
running keys are pairwise distinct (a Python dict guarantees this), and no
id is both queued and running. -/
def wf (s : PipelineState) : Prop :=
  (queuedIds s).Nodup ∧ (runningIds s).Nodup ∧
    ∀ j ∈ queuedIds s, j ∉ runningIds s

instance (s : PipelineState) : Decidable (wf s) := by
  unfold wf; infer_instance

-- Bridging lemmas between the Bool membership tests used by the source and
-- propositional membership.

theorem qHas_iff (q : List QueuedEntry) (k : String) :
    qHas q k = true ↔ k ∈ q.map (fun e => e.job_id) := by
  simp [qHas, List.any_eq_true, List.mem_map]

theorem qHas_eq_false_iff (q : List QueuedEntry) (k : String) :
    qHas q k = false ↔ k ∉ q.map (fun e => e.job_id) := by
  rw [← Bool.not_eq_true, not_iff_not]
  exact qHas_iff q k

theorem hasKey_iff (m : List (String × RunningEntry)) (k : String) :
    hasKey m k = true ↔ k ∈ m.map (fun p => p.1) := by
  simp [hasKey, List.any_eq_true, List.mem_map]

theorem hasKey_eq_false_iff (m : List (String × RunningEntry)) (k : String) :
    hasKey m k = false ↔ k ∉ m.map (fun p => p.1) := by
  rw [← Bool.not_eq_true, not_iff_not]
  exact hasKey_iff m k

theorem dictSet_of_absent (m : List (String × RunningEntry)) (k : String)
    (v : RunningEntry) (h : hasKey m k = false) :
    dictSet m k v = m ++ [(k, v)] := by
  simp [dictSet, h]

theorem mem_dictRemove_keys (m : List (String × RunningEntry)) (k j : String) :
    j ∈ (dictRemove m k).map (fun p => p.1) ↔
      (j ∈ m.map (fun p => p.1) ∧ j ≠ k) := by
  simp only [dictRemove, List.mem_map, List.mem_filter]
  constructor
  · rintro ⟨p, ⟨hp, hcond⟩, hj⟩
    refine ⟨⟨p, hp, hj⟩, ?_⟩
    intro hjk
    subst hj; subst hjk
    simp at hcond
  · rintro ⟨⟨p, hp, hj⟩, hne⟩
    refine ⟨p, ⟨hp, ?_⟩, hj⟩
    subst hj
    simpa using hne

theorem dictRemove_keys_sublist (m : List (String × RunningEntry)) (k : String) :
    ((dictRemove m k).map (fun p => p.1)).Sublist (m.map (fun p => p.1)) :=
  (List.filter_sublist m).map (fun p => p.1)

/-- Claim C9: StateStore.add_job is idempotent on the queue: enqueueing a
job id already present in `queued` leaves the state unchanged (the second
of two consecutive enqueues of the same id is a no-op), and enqueueing an
absent id appends the entry at the tail of `queued`, touching nothing
else. -/
theorem C9_enqueue_idempotent (t t' : Nat) (jid : String)
    (info info' : JobInfo) (s : PipelineState) :
    (qHas s.queued jid = true → add_job t jid info s = s) ∧
    (qHas s.queued jid = false →
       (add_job t jid info s).queued = s.queued ++ [⟨jid, info, t⟩] ∧
       (add_job t jid info s).running = s.running ∧
       (add_job t jid info s).completed = s.completed ∧
       (add_job t jid info s).failed = s.failed) ∧
    add_job t' jid info' (add_job t jid info s) = add_job t jid info s := by
  refine ⟨?_, ?_, ?_⟩
  · intro h; simp [add_job, h]
  · intro h; simp [add_job, h]
  · by_cases h : qHas s.queued jid = true
    · simp [add_job, h]
    · have h' : qHas s.queued jid = false := by
        simpa using h
      have h2 : qHas (s.queued ++ [⟨jid, info, t⟩]) jid = true := by
        simp [qHas]
      simp [add_job, h', h2]

/-- Witness for C9 at a concrete state: a second enqueue of the same id is
absorbed by the first. -/
theorem C9_enqueue_idempotent_witness :
    add_job 1 "water_opt_1" ⟨"water", "w.xyz", "w.inp", "opt", 1⟩
        (add_job 0 "water_opt_1" ⟨"water", "w.xyz", "w.inp", "opt", 0⟩ emptyState) =
      add_job 0 "water_opt_1" ⟨"water", "w.xyz", "w.inp", "opt", 0⟩ emptyState :=
  (C9_enqueue_idempotent 0 1 "water_opt_1"
    ⟨"water", "w.xyz", "w.inp", "opt", 0⟩
    ⟨"water", "w.xyz", "w.inp", "opt", 1⟩ emptyState).2.2

/-- Standard job info used in concrete scenarios below. -/
def infoW : JobInfo :=
  ⟨"water", "folders/waiting/water.xyz", "folders/waiting/water.inp", "opt", 0⟩

/-- Claim C2, counterexample: the retry sequence of the scheduler
(JobManager._handle_failure lines 166-167) calls StateStore.add_job while
the job is still in `running` and only afterwards calls clear_running, so
after the complete add_job call the same job id is present in both
`queued` and `running`.  The state below is reached from the empty
aggregate by enqueue, dequeue, and then exactly that re-enqueue. -/
theorem C2_transient_overlap_cex :
    wf (add_job 2 "water_opt_1" { infoW with retry_count := 1 }
          (get_next_job 1 (add_job 0 "water_opt_1" infoW emptyState)).2) = False := by
  simp only [eq_iff_iff, iff_false]
  decide

/-- The retry sequence of the scheduler (JobManager._handle_failure lines
166-167): re-enqueue the updated job info under the same id, then remove
the id from `running`. -/
def retry_requeue (t : Nat) (jid : String) (info : JobInfo)
    (s : PipelineState) : PipelineState :=
  clear_running jid (add_job t jid info s)

theorem add_job_of_absent (t : Nat) (jid : String) (info : JobInfo)
    (s : PipelineState) (h : qHas s.queued jid = false) :
    add_job t jid info s = { s with queued := s.queued ++ [⟨jid, info, t⟩] } := by
  simp [add_job, h]

theorem add_job_of_present (t : Nat) (jid : String) (info : JobInfo)
    (s : PipelineState) (h : qHas s.queued jid = true) :
    add_job t jid info s = s := by
  simp [add_job, h]

theorem clear_running_of_present (jid : String) (s : PipelineState)
    (h : hasKey s.running jid = true) :
    clear_running jid s = { s with running := dictRemove s.running jid } := by
  simp [clear_running, h]

theorem nodup_append_singleton (l : List String) (a : String)
    (hl : l.Nodup) (ha : a ∉ l) : (l ++ [a]).Nodup := by
  rw [List.nodup_append]
  exact ⟨hl, List.nodup_singleton a, by
    intro x hx hy
    simp only [List.mem_singleton] at hy
    subst hy; exact ha hx⟩

theorem wf_add_job (t : Nat) (jid : String) (info : JobInfo)
    (s : PipelineState) (hwf : wf s) (hnr : jid ∉ runningIds s) :
    wf (add_job t jid info s) := by
  obtain ⟨hq, hr, hd⟩ := hwf
  by_cases h : qHas s.queued jid = true
  · simpa [add_job_of_present t jid info s h] using ⟨hq, hr, hd⟩
  · have h' : qHas s.queued jid = false := by simpa using h
    have hmem : jid ∉ queuedIds s := (qHas_eq_false_iff _ _).mp h'
    rw [add_job_of_absent t jid info s h']
    refine ⟨?_, by simpa [runningIds] using hr, ?_⟩
    · simp only [queuedIds, List.map_append, List.map_cons, List.map_nil]
      exact nodup_append_singleton _ _ hq hmem
    · intro j hj
      simp only [queuedIds, List.map_append, List.map_cons, List.map_nil,
        List.mem_append, List.mem_singleton] at hj
      rcases hj with hj | hj
      · simpa [runningIds] using hd j hj
      · subst hj; simpa [runningIds] using hnr

theorem wf_get_next_job (t : Nat) (s : PipelineState) (hwf : wf s) :
    wf (get_next_job t s).2 := by
  obtain ⟨hq, hr, hd⟩ := hwf
  match hs : s.queued with
  | [] => simpa [get_next_job, hs] using ⟨hq, hr, hd⟩
  | j :: rest =>
    have hhead : j.job_id ∈ queuedIds s := by
      simp [queuedIds, hs]
    have hnr : j.job_id ∉ runningIds s := hd _ hhead
    have hkf : hasKey s.running j.job_id = false :=
      (hasKey_eq_false_iff _ _).mpr hnr
    have hqs : queuedIds s = j.job_id :: rest.map (fun e => e.job_id) := by
      simp [queuedIds, hs]
    rw [hqs] at hq hd
    refine ⟨?_, ?_, ?_⟩
    · simpa [get_next_job, hs, queuedIds] using hq.of_cons
    · simp only [get_next_job, hs, runningIds, dictSet_of_absent _ _ _ hkf,
        List.map_append, List.map_cons, List.map_nil]
      exact nodup_append_singleton _ _ hr hnr
    · intro x hx
      simp only [get_next_job, hs, queuedIds, List.mem_map] at hx
      obtain ⟨e, he, hxe⟩ := hx
      have hxrest : x ∈ rest.map (fun e => e.job_id) :=
        List.mem_map.mpr ⟨e, he, hxe⟩
      have hxold : x ∉ runningIds s := hd x (List.mem_cons_of_mem _ hxrest)
      have hxne : x ≠ j.job_id := by
        intro hxj
        subst hxj
        exact (List.nodup_cons.mp hq).1 hxrest
      simp only [get_next_job, hs, runningIds, dictSet_of_absent _ _ _ hkf,
        List.map_append, List.map_cons, List.map_nil, List.mem_append,
        List.mem_singleton]
      rintro (hmem | hmem)
      · exact hxold hmem
      · exact hxne hmem

theorem wf_mark_completed (t : Nat) (jid : String) (res : Option String)
    (s : PipelineState) (hwf : wf s) : wf (mark_completed t jid res s) := by
  obtain ⟨hq, hr, hd⟩ := hwf
  match hfind : dictGet s.running jid with
  | none => simpa [mark_completed, hfind] using ⟨hq, hr, hd⟩
  | some entry =>
    refine ⟨by simpa [mark_completed, hfind, queuedIds] using hq, ?_, ?_⟩
    · simpa [mark_completed, hfind, runningIds] using
        hr.sublist (dictRemove_keys_sublist s.running jid)
    · intro x hx
      have hx' : x ∈ queuedIds s := by
        simpa [mark_completed, hfind, queuedIds] using hx
      have := hd x hx'
      simp only [mark_completed, hfind, runningIds]
      intro hmem
      exact this ((dictRemove_keys_sublist s.running jid).subset hmem)

theorem wf_mark_failed (t : Nat) (jid : String) (err : String)
    (s : PipelineState) (hwf : wf s) : wf (mark_failed t jid err s) := by
  obtain ⟨hq, hr, hd⟩ := hwf
  match hfind : dictGet s.running jid with
  | none => simpa [mark_failed, hfind] using ⟨hq, hr, hd⟩
  | some entry =>
    refine ⟨by simpa [mark_failed, hfind, queuedIds] using hq, ?_, ?_⟩
    · simpa [mark_failed, hfind, runningIds] using
        hr.sublist (dictRemove_keys_sublist s.running jid)
    · intro x hx
      have hx' : x ∈ queuedIds s := by
        simpa [mark_failed, hfind, queuedIds] using hx
      have := hd x hx'
      simp only [mark_failed, hfind, runningIds]
      intro hmem
      exact this ((dictRemove_keys_sublist s.running jid).subset hmem)

theorem wf_clear_running (jid : String) (s : PipelineState) (hwf : wf s) :
    wf (clear_running jid s) := by
  obtain ⟨hq, hr, hd⟩ := hwf
  by_cases h : hasKey s.running jid = true
  · refine ⟨by simpa [clear_running, h, queuedIds] using hq, ?_, ?_⟩
    · simpa [clear_running, h, runningIds] using
        hr.sublist (dictRemove_keys_sublist s.running jid)
    · intro x hx
      have hx' : x ∈ queuedIds s := by
        simpa [clear_running, h, queuedIds] using hx
      have := hd x hx'
      simp only [clear_running, h, if_true, runningIds]
      intro hmem
      exact this ((dictRemove_keys_sublist s.running jid).subset hmem)
  · have h' : hasKey s.running jid = false := by simpa using h
    simpa [clear_running, h'] using ⟨hq, hr, hd⟩

theorem wf_retry_requeue (t : Nat) (jid : String) (info : JobInfo)
    (s : PipelineState) (hwf : wf s) : wf (retry_requeue t jid info s) := by
  by_cases hnr : jid ∈ runningIds s
  · -- the real scheduler case: the job is still running when re-enqueued
    have hnq : jid ∉ queuedIds s := fun hq => hwf.2.2 jid hq hnr
    have hq' : qHas s.queued jid = false := (qHas_eq_false_iff _ _).mpr hnq
    obtain ⟨hq, hr, hd⟩ := hwf
    have hAdd := add_job_of_absent t jid info s hq'
    have hkeyAdd : hasKey (add_job t jid info s).running jid = true := by
      rw [hAdd]
      exact (hasKey_iff _ _).mpr hnr
    rw [retry_requeue, clear_running_of_present jid _ hkeyAdd, hAdd]
    refine ⟨?_, ?_, ?_⟩
    · simp only [queuedIds, List.map_append, List.map_cons, List.map_nil]
      exact nodup_append_singleton _ _ hq hnq
    · simp only [runningIds]
      exact hr.sublist (dictRemove_keys_sublist s.running jid)
    · intro x hx
      simp only [queuedIds, List.map_append, List.map_cons, List.map_nil,
        List.mem_append, List.mem_singleton] at hx
      simp only [runningIds, mem_dictRemove_keys]
      rintro ⟨hmem, hne⟩
      rcases hx with hx | hx
      · exact hd x hx hmem
      · exact hne hx
  · exact wf_clear_running jid _ (wf_add_job t jid info s hwf hnr)

/-- Claim C2, amended: each job id appears in at most one of `queued` and
`running` after every complete state-store operation, EXCEPT transiently
inside the retry sequence of the scheduler, between its re-enqueue (add_job,
performed while the job is still running) and the clear_running call that
follows it; the composed retry sequence, as well as dequeue,
mark_completed, mark_failed, clear_running, and an enqueue of an id that
is not currently running, all preserve the disjointness invariant
(together with uniqueness of queued ids and running keys). -/
theorem C2_id_in_at_most_one_of_queued_running (t : Nat) (jid : String)
    (info : JobInfo) (err : String) (res : Option String)
    (s : PipelineState) (hwf : wf s) :
    (jid ∉ runningIds s → wf (add_job t jid info s)) ∧
    wf (get_next_job t s).2 ∧
    wf (mark_completed t jid res s) ∧
    wf (mark_failed t jid err s) ∧
    wf (clear_running jid s) ∧
    wf (retry_requeue t jid info s) :=
  ⟨fun hnr => wf_add_job t jid info s hwf hnr,
   wf_get_next_job t s hwf,
   wf_mark_completed t jid res s hwf,
   wf_mark_failed t jid err s hwf,
   wf_clear_running jid s hwf,
   wf_retry_requeue t jid info s hwf⟩

/-- Witness for C2 at a concrete state: the full retry sequence applied to
a well-formed state with the job running restores the invariant. -/
theorem C2_id_in_at_most_one_witness :
    wf (retry_requeue 2 "water_opt_1" infoW
          ⟨[], [("water_opt_1", ⟨infoW, 1⟩)], [], []⟩) :=
  (C2_id_in_at_most_one_of_queued_running 2 "water_opt_1" infoW "e" none
    ⟨[], [("water_opt_1", ⟨infoW, 1⟩)], [], []⟩ (by decide)).2.2.2.2.2

-- Projection lemmas for the store operations.

theorem add_job_running (t : Nat) (jid : String) (info : JobInfo)
    (s : PipelineState) : (add_job t jid info s).running = s.running := by
  unfold add_job; split <;> rfl

theorem clear_running_queued (jid : String) (s : PipelineState) :
    (clear_running jid s).queued = s.queued := by
  unfold clear_running; split <;> rfl

theorem clear_running_failed (jid : String) (s : PipelineState) :
    (clear_running jid s).failed = s.failed := by
  unfold clear_running; split <;> rfl

theorem mark_completed_queued (t : Nat) (jid : String) (res : Option String)
    (s : PipelineState) : (mark_completed t jid res s).queued = s.queued := by
  cases h : dictGet s.running jid <;> simp [mark_completed, h]

theorem mark_failed_queued (t : Nat) (jid : String) (err : String)
    (s : PipelineState) : (mark_failed t jid err s).queued = s.queued := by
  cases h : dictGet s.running jid <;> simp [mark_failed, h]

theorem hasKey_dictRemove_self (m : List (String × RunningEntry)) (k : String) :
    hasKey (dictRemove m k) k = false := by
  rw [hasKey_eq_false_iff, mem_dictRemove_keys]
  simp

theorem hasKey_dictRemove_other (m : List (String × RunningEntry))
    (k j : String) (h : j ≠ k) :
    hasKey (dictRemove m k) j = hasKey m j := by
  rcases Bool.eq_false_or_eq_true (hasKey m j) with hm | hm
  · rw [hm, hasKey_iff, mem_dictRemove_keys]
    rw [hasKey_iff] at hm
    exact ⟨hm, h⟩
  · rw [hm, hasKey_eq_false_iff, mem_dictRemove_keys]
    rw [hasKey_eq_false_iff] at hm
    tauto

theorem hasKey_clear_running_self (jid : String) (s : PipelineState) :
    hasKey (clear_running jid s).running jid = false := by
  unfold clear_running
  by_cases h : hasKey s.running jid = true
  · rw [if_pos h]; exact hasKey_dictRemove_self s.running jid
  · rw [if_neg h]; simpa using h

theorem qHas_append (q : List QueuedEntry) (e : QueuedEntry) (j : String) :
    qHas (q ++ [e]) j = (qHas q j || (e.job_id == j)) := by
  simp [qHas, List.any_append]

theorem dictGet_isSome_of_hasKey (m : List (String × RunningEntry))
    (k : String) (h : hasKey m k = true) : ∃ e, dictGet m k = some e := by
  induction m with
  | nil => simp [hasKey] at h
  | cons p rest ih =>
      by_cases hp : (p.1 == k) = true
      · exact ⟨p.2, by simp [dictGet, List.find?_cons, hp]⟩
      · have hp' : (p.1 == k) = false := by simpa using hp
        have h' : hasKey rest k = true := by simpa [hasKey, hp'] using h
        obtain ⟨e, he⟩ := ih h'
        refine ⟨e, ?_⟩
        simpa [dictGet, List.find?_cons, hp'] using he

theorem failedIds_mark_failed (t : Nat) (jid err : String) (s : PipelineState)
    (hr : hasKey s.running jid = true) :
    failedIds (mark_failed t jid err s) = failedIds s ++ [jid] := by
  obtain ⟨e, he⟩ := dictGet_isSome_of_hasKey s.running jid hr
  simp [mark_failed, he, failedIds]

/-
Job Manager embedding (orca_job_manager.py).
-/

/-- Log events relevant to the claims: the error logged by
atomic_write on a failed write (safe_file_utils), the success message
logged by StateStore.add_job, and the "Job execution error" logged by
JobManager.process_jobs when a future raised. -/
inductive LogEvent where
  | errorWriteFailed : String → LogEvent
  | infoAddedJob : String → LogEvent
  | errorJobExecution : String → LogEvent
deriving DecidableEq, Repr

/-- The verdict dict produced by parse_orca_output (orca_output_utils.py):
success flag, error message and error classification.  On success the
Python dict carries a message and no error/error_type keys;
JobManager._handle_failure reads the missing keys with .get defaults
"Unknown error" and "unknown", and no code path reads them on success, so
the success verdict is modelled with error_type "unknown". -/
structure OrcaParse where
  success : Bool
  error : String
  error_type : String
deriving DecidableEq, Repr

/-- One atom of an extracted geometry: element label and Cartesian
coordinates; the decimal coordinate values are modelled as rationals. -/
structure Atom where
  element : String
  x : Rat
  y : Rat
  z : Rat
deriving DecidableEq, Repr

/-- Directory watched by the intake observer: ORCAPipeline.__init__
(orca_main.py lines 205-209) schedules the XYZFileHandler on input_dir,
and process_existing_files (lines 229-242) scans the same input_dir.
Default configuration value from config.txt / orca_setup.py. -/
def observer_watches : String := "folders/input"

/-- The staging directory for prepared inputs (paths.waiting_dir), into
which _chain_frequency_calculation writes its freq xyz file.  Default
configuration value from config.txt / orca_setup.py. -/
def waiting_dir : String := "folders/waiting"

/-- JobManager._handle_failure (orca_job_manager.py lines 155-188),
state-store footprint: if the classification is "incomplete" and the
retry count is below max_retries, re-enqueue the job with the retry count
incremented and then remove it from running (the retry sequence);
otherwise archive, write the error record, and mark the job failed. -/
def handle_failure_state (maxR t : Nat) (jid : String) (info : JobInfo)
    (etype emsg : String) (rc : Nat) (s : PipelineState) : PipelineState :=
  if etype = "incomplete" ∧ rc < maxR then
    retry_requeue t jid { info with retry_count := rc + 1 } s
  else
    mark_failed t jid emsg s

/-- JobManager._chain_frequency_calculation (lines 199-218): when the
extracted final geometry is none, log a warning and create nothing;
otherwise write exactly one file {molecule_name}_freq.xyz into the
waiting directory.  The StateStore is never called here.  Created files
are reported as (directory, file name) pairs. -/
def chain_frequency_calculation (molecule_name : String)
    (finalGeom : Option (List Atom)) : List (String × String) :=
  match finalGeom with
  | none => []
  | some _ => [(waiting_dir, molecule_name ++ "_freq.xyz")]

/-- JobManager._handle_success (lines 126-153): archive into the success
products area, plot, mark the job completed with the product directory,
notify, chain a frequency calculation when calc_type is "opt", clean up
the waiting files, remove the working directory.  The state-store
footprint is mark_completed; the second component lists the files the
call creates in the waiting directory (the chained freq xyz). -/
def handle_success (t : Nat) (jid : String) (info : JobInfo)
    (finalGeom : Option (List Atom)) (s : PipelineState) :
    PipelineState × List (String × String) :=
  (mark_completed t jid
     (some ("folders/products/success/" ++ info.molecule_name)) s,
   if info.calc_type = "opt" then
     chain_frequency_calculation info.molecule_name finalGeom
   else [])

/-- Which step of JobManager._execute_job (lines 80-110) raises, and the
verdict otherwise.  mkdirErr: ensure_directory on the per-job working
directory (line 90, BEFORE the try).  copyErr: shutil.copy of the input
file (line 93, BEFORE the try).  engineErr: an exception inside the try
block, lines 96-103 — subprocess timeout expiry (TimeoutExpired raised by
subprocess.run, line 122) is one of these.  parseRes: the verdict of
find_output_file + parse_orca_output when nothing raises; finalGeom: the
geometry extract_final_geometry yields on the success path. -/
structure ExecEnv where
  mkdirErr : Option String
  copyErr : Option String
  engineErr : Option String
  parseRes : OrcaParse
  finalGeom : Option (List Atom)
deriving DecidableEq, Repr

/-- Outcome of one _execute_job call: a normal return carrying the new
pipeline state and the files created in the waiting directory, or an
exception that propagated out of _execute_job, leaving the state as it
was. -/
inductive ExecOutcome where
  | returned : PipelineState → List (String × String) → ExecOutcome
  | raised : String → PipelineState → ExecOutcome
deriving DecidableEq, Repr

/-- JobManager._execute_job (lines 80-110).  Working-directory creation
and the input copy happen before the try block, so an exception there
propagates out; an exception inside the try (engine invocation, artifact
lookup, parsing, result dispatch) is caught and handled as a failure with
error_type "fatal" and the retry count read from the job info. -/
def execute_job (maxR t : Nat) (jid : String) (info : JobInfo)
    (env : ExecEnv) (s : PipelineState) : ExecOutcome :=
  match env.mkdirErr with
  | some e => .raised e s
  | none =>
    match env.copyErr with
    | some e => .raised e s
    | none =>
      match env.engineErr with
      | some e =>
          .returned
            (handle_failure_state maxR t jid info "fatal" e info.retry_count s) []
      | none =>
          if env.parseRes.success then
            let r := handle_success t jid info env.finalGeom s
            .returned r.1 r.2
          else
            .returned
              (handle_failure_state maxR t jid info env.parseRes.error_type
                env.parseRes.error info.retry_count s) []

/-- JobManager.process_jobs (lines 52-78) collection of one finished
future: future.result() is wrapped in try/except, so an exception that
escaped _execute_job is logged as "Job execution error" and the loop
continues with the state as the raising job left it. -/
def collect_future (o : ExecOutcome) : PipelineState × List LogEvent :=
  match o with
  | .returned s _ => (s, [])
  | .raised e s => (s, [LogEvent.errorJobExecution e])

/-- One scheduler attempt at the head job whose verdict comes back
classified "incomplete": get_next_job dequeues it, and _handle_failure
applies the retry policy with the retry count read from the job info. -/
def incompleteAttempt (maxR t : Nat) (emsg : String) (s : PipelineState) :
    PipelineState :=
  match get_next_job t s with
  | (none, s1) => s1
  | (some (jid, info), s1) =>
      handle_failure_state maxR t jid info "incomplete" emsg info.retry_count s1

/-- A state holding exactly one queued job. -/
def singleJobState (jid : String) (info : JobInfo) (t : Nat) : PipelineState :=
  ⟨[⟨jid, info, t⟩], [], [], []⟩

theorem incompleteAttempt_step (maxR t k : Nat) (jid emsg : String)
    (info : JobInfo) (hk : k < maxR) :
    incompleteAttempt maxR t emsg
        (singleJobState jid { info with retry_count := k } t) =
      singleJobState jid { info with retry_count := k + 1 } t := by
  simp [incompleteAttempt, singleJobState, get_next_job, handle_failure_state,
    hk, retry_requeue, add_job, clear_running, qHas, hasKey, dictSet,
    dictRemove]

theorem incompleteAttempt_exhaust (maxR t : Nat) (jid emsg : String)
    (info : JobInfo) :
    incompleteAttempt maxR t emsg
        (singleJobState jid { info with retry_count := maxR } t) =
      ⟨[], [], [], [⟨jid, { info with retry_count := maxR }, emsg, t⟩]⟩ := by
  simp [incompleteAttempt, singleJobState, get_next_job, handle_failure_state,
    Nat.lt_irrefl, mark_failed, dictGet, dictSet, dictRemove, hasKey,
    List.find?]

theorem iterate_incomplete (maxR t : Nat) (jid emsg : String)
    (info : JobInfo) :
    ∀ k, k ≤ maxR →
      (incompleteAttempt maxR t emsg)^[k]
          (singleJobState jid { info with retry_count := 0 } t) =
        singleJobState jid { info with retry_count := k } t := by
  intro k
  induction k with
  | zero => intro _; rfl
  | succ n ih =>
      intro h
      rw [Function.iterate_succ_apply', ih (Nat.le_of_succ_le h)]
      exact incompleteAttempt_step maxR t n jid emsg info (Nat.lt_of_succ_le h)

/-- Claim C1: on a verdict classified "incomplete" with retry count below
max_retries, _handle_failure re-enqueues the job at the tail of the queue
with the retry count incremented by one, leaves the failed list untouched
and removes the job from running; with any other classification, or with
the retry count exhausted, the job is marked Failed.  Consequently, a
single job classified "incomplete" on every attempt stays queued with
retry count k after k of the first max_retries attempts (so it is retried
exactly max_retries times) and after attempt max_retries + 1 ends in the
failed list with retry count equal to max_retries. -/
theorem C1_incomplete_retry_policy (maxR t rc : Nat) (jid emsg : String)
    (info : JobInfo) (s : PipelineState)
    (hq : qHas s.queued jid = false) (hr : hasKey s.running jid = true) :
    (rc < maxR →
       (handle_failure_state maxR t jid info "incomplete" emsg rc s).queued =
           s.queued ++ [⟨jid, { info with retry_count := rc + 1 }, t⟩] ∧
       (handle_failure_state maxR t jid info "incomplete" emsg rc s).failed =
           s.failed ∧
       hasKey (handle_failure_state maxR t jid info "incomplete" emsg rc s).running
           jid = false) ∧
    (∀ etype, (etype ≠ "incomplete" ∨ maxR ≤ rc) →
       failedIds (handle_failure_state maxR t jid info etype emsg rc s) =
         failedIds s ++ [jid]) ∧
    (∀ k, k ≤ maxR →
       (incompleteAttempt maxR t emsg)^[k]
           (singleJobState jid { info with retry_count := 0 } t) =
         singleJobState jid { info with retry_count := k } t) ∧
    (incompleteAttempt maxR t emsg)^[maxR + 1]
        (singleJobState jid { info with retry_count := 0 } t) =
      ⟨[], [], [], [⟨jid, { info with retry_count := maxR }, emsg, t⟩]⟩ := by
  refine ⟨?_, ?_, iterate_incomplete maxR t jid emsg info, ?_⟩
  · intro hrc
    rw [handle_failure_state, if_pos ⟨rfl, hrc⟩, retry_requeue,
      add_job_of_absent _ _ _ _ hq]
    refine ⟨?_, ?_, hasKey_clear_running_self _ _⟩
    · rw [clear_running_queued]
    · rw [clear_running_failed]
  · intro etype hcond
    rw [handle_failure_state, if_neg]
    · exact failedIds_mark_failed t jid emsg s hr
    · rintro ⟨he, hlt⟩
      rcases hcond with h | h
      · exact h he
      · exact absurd hlt (Nat.not_lt.mpr h)
  · rw [Function.iterate_succ_apply',
      iterate_incomplete maxR t jid emsg info maxR (Nat.le_refl maxR)]
    exact incompleteAttempt_exhaust maxR t jid emsg info

/-- Witness for C1: with max_retries = 2, a job whose every attempt is
classified "incomplete" ends, after 3 attempts, in the failed list with
retry count 2. -/
theorem C1_incomplete_retry_policy_witness :
    (incompleteAttempt 2 0 "Calculation did not complete")^[2 + 1]
        (singleJobState "water_opt_1" { infoW with retry_count := 0 } 0) =
      ⟨[], [], [],
       [⟨"water_opt_1", { infoW with retry_count := 2 },
         "Calculation did not complete", 0⟩]⟩ :=
  (C1_incomplete_retry_policy 2 0 0 "water_opt_1"
    "Calculation did not complete" infoW
    ⟨[], [("water_opt_1", ⟨infoW, 0⟩)], [], []⟩
    (by decide) (by decide)).2.2.2

theorem handle_failure_fatal (maxR t rc : Nat) (jid e : String)
    (info : JobInfo) (s : PipelineState) :
    handle_failure_state maxR t jid info "fatal" e rc s = mark_failed t jid e s := by
  rw [handle_failure_state, if_neg]
  rintro ⟨he, _⟩
  exact absurd he (by decide)

/-- Claim C4: a job whose engine invocation exceeds the timeout
(TimeoutExpired raised inside the try block of _execute_job) is handled
exactly like an engine-reported error whose verdict classification is
"fatal": the resulting state transitions are identical, both mark the job
Failed, and neither re-enqueues it — for every retry count. -/
theorem C4_timeout_fatal_equivalence (maxR t : Nat) (jid e : String)
    (info : JobInfo) (envT envF : ExecEnv) (s : PipelineState)
    (h1 : envT.mkdirErr = none) (h2 : envT.copyErr = none)
    (h3 : envT.engineErr = some e)
    (h4 : envF.mkdirErr = none) (h5 : envF.copyErr = none)
    (h6 : envF.engineErr = none)
    (h7 : envF.parseRes = ⟨false, e, "fatal"⟩)
    (hr : hasKey s.running jid = true) :
    execute_job maxR t jid info envT s = execute_job maxR t jid info envF s ∧
    execute_job maxR t jid info envT s =
      ExecOutcome.returned (mark_failed t jid e s) [] ∧
    failedIds (mark_failed t jid e s) = failedIds s ++ [jid] ∧
    (mark_failed t jid e s).queued = s.queued := by
  have hT : execute_job maxR t jid info envT s =
      ExecOutcome.returned (mark_failed t jid e s) [] := by
    simp [execute_job, h1, h2, h3, handle_failure_fatal]
  have hF : execute_job maxR t jid info envF s =
      ExecOutcome.returned (mark_failed t jid e s) [] := by
    simp [execute_job, h4, h5, h6, h7, handle_failure_fatal]
  exact ⟨hT.trans hF.symm, hT,
    failedIds_mark_failed t jid e s hr, mark_failed_queued t jid e s⟩

/-- Environment in which the engine invocation times out. -/
def envTimeoutW : ExecEnv :=
  ⟨none, none, some "Command timed out after 3600 seconds",
   ⟨true, "", "unknown"⟩, none⟩

/-- Environment in which the engine reports a fatal error in its output. -/
def envFatalW : ExecEnv :=
  ⟨none, none, none,
   ⟨false, "Command timed out after 3600 seconds", "fatal"⟩, none⟩

/-- A state with the single water job running. -/
def sRunW : PipelineState := ⟨[], [("water_opt_1", ⟨infoW, 0⟩)], [], []⟩

/-- Witness for C4: at a concrete running job with retry count 0, timeout
and fatal-verdict handling coincide and mark the job Failed. -/
theorem C4_timeout_fatal_equivalence_witness :
    execute_job 2 1 "water_opt_1" infoW envTimeoutW sRunW =
      execute_job 2 1 "water_opt_1" infoW envFatalW sRunW :=
  (C4_timeout_fatal_equivalence 2 1 "water_opt_1"
    "Command timed out after 3600 seconds" infoW envTimeoutW envFatalW sRunW
    rfl rfl rfl rfl rfl rfl rfl (by decide)).1

/-- Environment in which the input copy (step 2, before the try block)
raises. -/
def envCopyFailW : ExecEnv :=
  ⟨none, some "No such file or directory", none, ⟨true, "", "unknown"⟩, none⟩

/-- Claim C5, counterexample: an uncaught exception during input
materialization (shutil.copy, step 2 — before the try block of
_execute_job) propagates out of _execute_job with the pipeline state
untouched: the job is NOT routed through the failure branch, is never
marked Failed, and stays in `running`, contradicting the claim that any
uncaught exception during steps 1-5 ends with the job marked Failed. -/
theorem C5_step2_exception_cex :
    execute_job 2 1 "water_opt_1" infoW envCopyFailW sRunW =
      ExecOutcome.raised "No such file or directory" sRunW ∧
    failedIds sRunW = [] ∧
    hasKey sRunW.running "water_opt_1" = true := by
  refine ⟨rfl, rfl, by decide⟩

theorem handle_failure_other_job (maxR t rc : Nat) (jid etype emsg j : String)
    (info : JobInfo) (s : PipelineState) (hj : j ≠ jid) :
    hasKey (handle_failure_state maxR t jid info etype emsg rc s).running j =
      hasKey s.running j ∧
    qHas (handle_failure_state maxR t jid info etype emsg rc s).queued j =
      qHas s.queued j := by
  have hje : (jid == j) = false := by simpa using Ne.symm hj
  unfold handle_failure_state
  by_cases hc : etype = "incomplete" ∧ rc < maxR
  · rw [if_pos hc]
    unfold retry_requeue
    constructor
    · unfold clear_running
      by_cases hk :
          hasKey (add_job t jid { info with retry_count := rc + 1 } s).running
            jid = true
      · rw [if_pos hk, add_job_running]
        exact hasKey_dictRemove_other s.running jid j hj
      · rw [if_neg hk, add_job_running]
    · rw [clear_running_queued]
      unfold add_job
      by_cases hq : qHas s.queued jid = true
      · rw [if_pos hq]
      · rw [if_neg hq]
        rw [show qHas
            ({ s with queued := s.queued ++
               [⟨jid, { info with retry_count := rc + 1 }, t⟩] } :
                 PipelineState).queued j
            = (qHas s.queued j || (jid == j)) from
          qHas_append s.queued ⟨jid, { info with retry_count := rc + 1 }, t⟩ j]
        rw [hje, Bool.or_false]
  · rw [if_neg hc]
    cases hfind : dictGet s.running jid with
    | none => simp [mark_failed, hfind]
    | some entry =>
        refine ⟨?_, by simp [mark_failed, hfind]⟩
        simp only [mark_failed, hfind]
        exact hasKey_dictRemove_other s.running jid j hj

/-- Claim C5, amended: an uncaught exception inside the try block of
_execute_job (steps 3-5: engine invocation, artifact lookup,
interpretation) is handled as a failure with classification "fatal" and
the job is marked Failed; an uncaught exception during step 1
(working-directory creation) or step 2 (input materialization), which the
source places BEFORE the try block, propagates out of _execute_job with
the state untouched — the scheduler loop catches and logs it and keeps
running, but the job is not marked Failed and remains in `running`.  In
every case the failure handling of one job leaves the per-other-job
queued and running membership unchanged. -/
theorem C5_exception_containment (maxR t : Nat) (jid e : String)
    (info : JobInfo) (env : ExecEnv) (s : PipelineState)
    (hr : hasKey s.running jid = true) :
    (env.mkdirErr = none → env.copyErr = none → env.engineErr = some e →
       execute_job maxR t jid info env s =
         ExecOutcome.returned (mark_failed t jid e s) [] ∧
       failedIds (mark_failed t jid e s) = failedIds s ++ [jid]) ∧
    (env.mkdirErr = some e →
       execute_job maxR t jid info env s = ExecOutcome.raised e s) ∧
    (env.mkdirErr = none → env.copyErr = some e →
       execute_job maxR t jid info env s = ExecOutcome.raised e s) ∧
    (∀ e1 s1, collect_future (ExecOutcome.raised e1 s1) =
       (s1, [LogEvent.errorJobExecution e1])) ∧
    (∀ etype emsg rc j, j ≠ jid →
       hasKey (handle_failure_state maxR t jid info etype emsg rc s).running j =
         hasKey s.running j ∧
       qHas (handle_failure_state maxR t jid info etype emsg rc s).queued j =
         qHas s.queued j) := by
  refine ⟨?_, ?_, ?_, fun e1 s1 => rfl, ?_⟩
  · intro h1 h2 h3
    constructor
    · simp [execute_job, h1, h2, h3, handle_failure_fatal]
    · exact failedIds_mark_failed t jid e s hr
  · intro h1
    simp [execute_job, h1]
  · intro h1 h2
    simp [execute_job, h1, h2]
  · intro etype emsg rc j hj
    exact handle_failure_other_job maxR t rc jid etype emsg j info s hj

/-- Witness for C5 (amended): an in-try exception at the concrete running
water job is returned as a fatal-handled failure. -/
theorem C5_exception_containment_witness :
    execute_job 2 1 "water_opt_1" infoW envTimeoutW sRunW =
      ExecOutcome.returned
        (mark_failed 1 "water_opt_1" "Command timed out after 3600 seconds" sRunW)
        [] ∧
    failedIds
        (mark_failed 1 "water_opt_1" "Command timed out after 3600 seconds" sRunW) =
      failedIds sRunW ++ ["water_opt_1"] :=
  (C5_exception_containment 2 1 "water_opt_1"
    "Command timed out after 3600 seconds" infoW envTimeoutW sRunW
    (by decide)).1 rfl rfl rfl

/-- Claim C3: evaluation of the success handler.  Handling a successful
"opt" job whose final geometry extraction succeeds leaves `queued`
unchanged (the StateStore is never asked to enqueue anything) and creates
exactly one file, {molecule}_freq.xyz, in the waiting directory; when
extraction yields none, no file is created and the failed list is
untouched.  The intake observer and the startup scan both read only the
input directory, which is distinct from the waiting directory, so the
chained file is never turned into a queued job. -/
theorem C3_chain_creates_file_not_queued_job :
    (∀ (t : Nat) (jid : String) (info : JobInfo) (g : Option (List Atom))
        (s : PipelineState),
       (handle_success t jid info g s).1.queued = s.queued) ∧
    (handle_success 1 "water_opt_1" infoW (some [⟨"O", 0, 0, 0⟩]) sRunW).2 =
      [(waiting_dir, "water_freq.xyz")] ∧
    (handle_success 1 "water_opt_1" infoW none sRunW).2 = [] ∧
    failedIds (handle_success 1 "water_opt_1" infoW none sRunW).1 =
      failedIds sRunW ∧
    observer_watches ≠ waiting_dir := by
  refine ⟨?_, by decide, by decide, by decide, by decide⟩
  intro t jid info g s
  exact mark_completed_queued t jid _ s

/-
Notifier embedding (orca_notifier.py).
-/

/-- Notifier configuration and mutable fields (Notifier.__init__):
enabled, notification_threshold, notification_interval_minutes,
last_notification and completion_count.  Wall-clock time (datetime.now)
is modelled as a natural number of minutes. -/
structure NotifierState where
  enabled : Bool
  threshold : Nat
  interval : Nat
  last_notification : Option Nat
  completion_count : Nat
deriving DecidableEq, Repr

/-- Notifier.should_notify (lines 23-35): false when disabled or when the
counter is below the threshold; true when no alert was ever sent;
otherwise true exactly when strictly more than `interval` minutes elapsed
since the last alert. -/
def should_notify (now : Nat) (n : NotifierState) : Bool :=
  if !n.enabled then false
  else if n.completion_count < n.threshold then false
  else
    match n.last_notification with
    | none => true
    | some last => decide (now - last > n.interval)

/-- Notifier.send_email (lines 37-59): returns false immediately when
disabled, otherwise whether the SMTP delivery succeeded (sendOk). -/
def send_email (sendOk : Bool) (n : NotifierState) : Bool :=
  if !n.enabled then false else sendOk

/-- Notifier.notify_completion (lines 61-73): increment the completion
counter; when should_notify holds, attempt the email, and only when it
was actually sent record the send time and reset the counter to zero.
Returns the new notifier state and whether an alert was sent. -/
def notify_completion (now : Nat) (sendOk : Bool) (n : NotifierState) :
    NotifierState × Bool :=
  let n1 := { n with completion_count := n.completion_count + 1 }
  if should_notify now n1 then
    if send_email sendOk n1 then
      ({ n1 with last_notification := some now, completion_count := 0 }, true)
    else (n1, false)
  else (n1, false)

/-- Claim C7: with notifications enabled and the mail transport
succeeding, one completion notification sends an alert exactly when the
accumulated counter (after the increment) has reached the threshold and
either no alert was ever sent or strictly more than the configured
interval elapsed since the last one; on an alert the counter resets to
zero and the send time is recorded; otherwise the state changes only by
the counter increment. -/
theorem C7_notification_batching (now : Nat) (sendOk : Bool)
    (n : NotifierState) (hen : n.enabled = true) (hsend : sendOk = true) :
    ((notify_completion now sendOk n).2 = true ↔
       (n.threshold ≤ n.completion_count + 1 ∧
        (n.last_notification = none ∨
         ∃ last, n.last_notification = some last ∧ n.interval < now - last))) ∧
    ((notify_completion now sendOk n).2 = true →
       (notify_completion now sendOk n).1 =
         { n with completion_count := 0, last_notification := some now }) ∧
    ((notify_completion now sendOk n).2 = false →
       (notify_completion now sendOk n).1 =
         { n with completion_count := n.completion_count + 1 }) := by
  subst hsend
  by_cases hth : n.completion_count + 1 < n.threshold
  · have hsn : should_notify now
        { n with completion_count := n.completion_count + 1 } = false := by
      simp [should_notify, hen, hth]
    refine ⟨?_, ?_, ?_⟩
    · simp only [notify_completion, hsn, if_false, Bool.false_eq_true,
        false_iff]
      rintro ⟨hle, _⟩
      omega
    · simp [notify_completion, hsn]
    · simp [notify_completion, hsn]
  · have hle : n.threshold ≤ n.completion_count + 1 := Nat.le_of_not_lt hth
    have hse : send_email true
        { n with completion_count := n.completion_count + 1 } = true := by
      simp [send_email, hen]
    cases hlast : n.last_notification with
    | none =>
        have hsn : should_notify now
            { n with completion_count := n.completion_count + 1 } = true := by
          simp [should_notify, hen, hth, hlast]
        have hnc : notify_completion now true n =
            ({ n with completion_count := 0, last_notification := some now },
             true) := by
          simp [notify_completion, hsn, hse]
        refine ⟨?_, ?_, ?_⟩
        · rw [hnc]
          simp [hlast, hle]
        · rw [hnc]
          intro
          rfl
        · rw [hnc]
          simp
    | some last =>
        rw [hlast] at hse
        by_cases hint : n.interval < now - last
        · have hsn : should_notify now
              { n with completion_count := n.completion_count + 1,
                       last_notification := some last } = true := by
            simp [should_notify, hen, hth, hint]
          refine ⟨?_, ?_, ?_⟩
          · simp [notify_completion, hlast, hsn, hse, hle, hint]
          · simp [notify_completion, hlast, hsn, hse]
          · simp [notify_completion, hlast, hsn, hse]
        · have hsn : should_notify now
              { n with completion_count := n.completion_count + 1,
                       last_notification := some last } = false := by
            simp [should_notify, hen, hth, hint]
          refine ⟨?_, ?_, ?_⟩
          · simp only [notify_completion, hlast, hsn, if_false,
              Bool.false_eq_true, false_iff]
            rintro ⟨_, hor⟩
            rcases hor with hnone | ⟨l, hl, hi⟩
            · cases hnone
            · cases hl
              exact hint hi
          · simp [notify_completion, hlast, hsn]
          · simp [notify_completion, hlast, hsn]

/-- Witness for C7: threshold 5, interval 60 minutes, counter at 4,
enabled, no prior alert — the 5th completion alerts and resets the
counter. -/
theorem C7_notification_batching_witness :
    (notify_completion 10 true ⟨true, 5, 60, none, 4⟩).2 = true ∧
    (notify_completion 10 true ⟨true, 5, 60, none, 4⟩).1 =
      ⟨true, 5, 60, some 10, 0⟩ := by
  have h := C7_notification_batching 10 true ⟨true, 5, 60, none, 4⟩ rfl rfl
  refine ⟨h.1.mpr ⟨by decide, Or.inl rfl⟩, ?_⟩
  exact h.2.1 (h.1.mpr ⟨by decide, Or.inl rfl⟩)

/-
Persistence embedding (orca_safe_file.py and StateStore._save_state).
-/

/-- The state-document path (paths.state_file default). -/
def state_file : String := "pipeline_state.json"

/-- atomic_write (orca_safe_file.py lines 9-32): write to a temporary
file, then move it over the target.  Any exception is caught inside the
function: an error is logged and False is returned instead of raising.
writeOk says whether the underlying write/rename succeeded; the result is
(success flag, logged events). -/
def atomic_write (writeOk : Bool) (path : String) : Bool × List LogEvent :=
  if writeOk then (true, []) else (false, [LogEvent.errorWriteFailed path])

/-- StateStore._load_state (orca_state.py lines 29-37): safe_json_read
with the empty aggregate as fallback for a missing or corrupt document. -/
def load_state (disk : Option PipelineState) : PipelineState :=
  disk.getD emptyState

/-- StateStore._save_state (orca_state.py lines 39-42): stamps
last_updated and calls atomic_json_write; the Bool success flag returned
by atomic_write is DISCARDED, so the function always returns normally.
The on-disk document is replaced only when the write actually
succeeded. -/
def save_state (writeOk : Bool) (st : PipelineState)
    (disk : Option PipelineState) : Option PipelineState × List LogEvent :=
  let r := atomic_write writeOk state_file
  (if r.1 then some st else disk, r.2)

/-- StateStore.add_job with its persistence (orca_state.py lines 44-55):
load the document, no-op when the id is already queued; otherwise append
the entry, save (without inspecting the success of the save), and log
"Added job to queue" unconditionally, returning normally in every
case. -/
def add_job_disk (writeOk : Bool) (t : Nat) (jid : String) (info : JobInfo)
    (disk : Option PipelineState) : Option PipelineState × List LogEvent :=
  let st := load_state disk
  if qHas st.queued jid then (disk, [])
  else
    let st1 := { st with queued := st.queued ++ [⟨jid, info, t⟩] }
    let r := save_state writeOk st1 disk
    (r.1, r.2 ++ [LogEvent.infoAddedJob jid])

/-- Claim C6: evaluation at a failing state write.  When the document
write fails during StateStore.add_job, the on-disk document is left
without the new job — the in-memory intent is lost — yet no exception
surfaces, the write is not retried, and the store still emits its
success log line "Added job to queue", exactly as in the successful-write
case; the operation proceeds as if the write had succeeded. -/
theorem C6_persistence_failure_silently_ignored :
    add_job_disk false 0 "water_opt_1" infoW (some emptyState) =
      (some emptyState,
       [LogEvent.errorWriteFailed state_file,
        LogEvent.infoAddedJob "water_opt_1"]) ∧
    add_job_disk true 0 "water_opt_1" infoW (some emptyState) =
      (some { emptyState with queued := [⟨"water_opt_1", infoW, 0⟩] },
       [LogEvent.infoAddedJob "water_opt_1"]) := by
  constructor <;> rfl

/-
Intake job-id derivation (orca_main.py).
-/

/-- XYZFileHandler.process_xyz_file (orca_main.py line 65): the job id is
the f-string "{molecule_name}_{calc_type}_{int(time.time())}".
time.time() is modelled in milliseconds; int() truncates it to whole
seconds. -/
def make_job_id (molecule_name calc_type : String) (epochMs : Nat) : String :=
  molecule_name ++ "_" ++ calc_type ++ "_" ++ toString (epochMs / 1000)

/-- Claim C8: evaluation at the failing input.  Two intake events for the
same molecule name and calculation type at two distinct instants of the
same wall-clock second receive the SAME job id — the id is not unique
under same-second creation. -/
theorem C8_same_second_id_collision :
    make_job_id "water" "opt" 1000100 = make_job_id "water" "opt" 1000900 ∧
    (1000100 : Nat) ≠ 1000900 := by
  exact ⟨rfl, by omega⟩

/-
Output classification embedding (orca_output_utils.py).
-/

/-- Character-list equality on an initial segment, used to define the
Python substring test. -/
def leadsWith : List Char → List Char → Bool
  | [], _ => true
  | _ :: _, [] => false
  | a :: as, b :: bs => a == b && leadsWith as bs

/-- The Python `needle in hay` substring containment on character lists. -/
def hasSub (needle : List Char) : List Char → Bool
  | [] => leadsWith needle []
  | c :: cs => leadsWith needle (c :: cs) || hasSub needle cs

/-- Substring containment on strings. -/
def strHasSub (needle hay : String) : Bool :=
  hasSub needle.data hay.data

/-- Python str.lower, character by character. -/
def strLower (s : String) : String :=
  ⟨s.data.map Char.toLower⟩

/-- The recoverable error patterns of classify_error (lines 88-92). -/
def recoverable_patterns : List String :=
  ["scf not converged", "convergence failure", "geometry optimization failed"]

/-- The fatal error patterns of classify_error (lines 99-104). -/
def fatal_patterns : List String :=
  ["segmentation fault", "memory allocation", "basis set not found",
   "invalid input"]

/-- classify_error (orca_output_utils.py lines 83-110): lowercase the
message; return "recoverable" when any recoverable pattern occurs in it,
else "fatal" when any fatal pattern occurs, else "incomplete". -/
def classify_error (error_msg : String) : String :=
  let error_lower := strLower error_msg
  if recoverable_patterns.any (fun p => strHasSub p error_lower) then
    "recoverable"
  else if fatal_patterns.any (fun p => strHasSub p error_lower) then
    "fatal"
  else
    "incomplete"

/-- parse_orca_output (orca_output_utils.py lines 25-66) on a located,
readable artifact, with the regex-based extract_error_message supplied as
a parameter: success exactly when the normal-termination banner occurs in
the content; otherwise, if the error-termination banner occurs, extract a
message and classify it; otherwise the calculation did not complete.  A
missing artifact (content none) is a fatal verdict.  On success the
Python dict carries only a message; the error and error_type fields hold
the .get defaults read by _handle_failure. -/
def parse_orca_output (extract : String → String) (content : Option String) :
    OrcaParse :=
  match content with
  | none => ⟨false, "Output file not found", "fatal"⟩
  | some c =>
      if strHasSub "****ORCA TERMINATED NORMALLY****" c then
        ⟨true, "Unknown error", "unknown"⟩
      else if strHasSub "ORCA finished by error termination" c then
        ⟨false, extract c, classify_error (extract c)⟩
      else
        ⟨false, "Calculation did not complete", "incomplete"⟩

/-- Claim C10: an error message extracted from an error-terminated
artifact that matches none of the recoverable patterns and none of the
fatal patterns is classified "incomplete", i.e. placed in the
retry-eligible bucket rather than treated as terminal. -/
theorem C10_unrecognized_error_is_incomplete (extract : String → String)
    (content msg : String)
    (hterm : strHasSub "ORCA finished by error termination" content = true)
    (hok : strHasSub "****ORCA TERMINATED NORMALLY****" content = false)
    (hmsg : extract content = msg)
    (hrec : ∀ p ∈ recoverable_patterns, strHasSub p (strLower msg) = false)
    (hfat : ∀ p ∈ fatal_patterns, strHasSub p (strLower msg) = false) :
    parse_orca_output extract (some content) = ⟨false, msg, "incomplete"⟩ := by
  have hrec1 : recoverable_patterns.any
      (fun p => strHasSub p (strLower msg)) = false := by
    rw [List.any_eq_false]
    intro p hp
    simp [hrec p hp]
  have hfat1 : fatal_patterns.any
      (fun p => strHasSub p (strLower msg)) = false := by
    rw [List.any_eq_false]
    intro p hp
    simp [hfat p hp]
  have hcl : classify_error msg = "incomplete" := by
    simp [classify_error, hrec1, hfat1]
  simp [parse_orca_output, hok, hterm, hmsg, hcl]

/-- The message extractor used in the C10 witness: extract_error_message
falling through to a fixed message. -/
def extractW : String → String := fun _ => "mysterious failure 42"

/-- Witness for C10: an error-terminated artifact whose extracted message
matches no recognized pattern parses to an "incomplete" verdict. -/
theorem C10_unrecognized_error_witness :
    parse_orca_output extractW (some "x ORCA finished by error termination") =
      ⟨false, "mysterious failure 42", "incomplete"⟩ :=
  C10_unrecognized_error_is_incomplete extractW
    "x ORCA finished by error termination" "mysterious failure 42"
    (by decide) (by decide) rfl (by decide) (by decide)

end OrcaPipeline
